import Mathlib

/-!
Verification of the Omniagent conversational sales assistant
(`sales_rag_agent.py`, `sql_agent_tool.py`) against its specification.

Messages and all Python strings are modelled as `List Char`.  External
collaborators (the reasoning LLM, the SQL agent executor, the PDF question
answering tool, the CRM lead store and the meeting store) are modelled as
oracle inputs: one `process` call consumes the values those collaborators
would return during that call.  The controller `process` is modelled over
the lead-tool state as it stands after `update_state` has run (the claims
all fix that state explicitly).
-/

abbrev Str := List Char

/-- Convert a string literal to the `List Char` representation. -/
def tl (s : String) : Str := s.toList

/-- The ASCII apostrophe character (codepoint 39). -/
def apoC : Char := Char.ofNat 39

/-- The ASCII double-quote character (codepoint 34). -/
def quoteC : Char := Char.ofNat 34

/-- The ASCII backslash character (codepoint 92). -/
def bslashC : Char := Char.ofNat 92

/-- Whitespace characters stripped by Python `str.strip()`. -/
def isSpaceChar (c : Char) : Bool :=
  c == ' ' || c == '\t' || c == '\n' || c == '\r' || c == '\x0b' || c == '\x0c'

/-- ASCII decimal digits, as recognised by Python `str.isdigit` on the
ASCII inputs this controller handles. -/
def isDigitChar (c : Char) : Bool :=
  c == '0' || c == '1' || c == '2' || c == '3' || c == '4' ||
  c == '5' || c == '6' || c == '7' || c == '8' || c == '9'

/-- Python `str.lower()` restricted to ASCII letters (the only characters
whose lowercase form the controller depends on). -/
def toLowerChar (c : Char) : Char :=
  match c with
  | 'A' => 'a' | 'B' => 'b' | 'C' => 'c' | 'D' => 'd' | 'E' => 'e'
  | 'F' => 'f' | 'G' => 'g' | 'H' => 'h' | 'I' => 'i' | 'J' => 'j'
  | 'K' => 'k' | 'L' => 'l' | 'M' => 'm' | 'N' => 'n' | 'O' => 'o'
  | 'P' => 'p' | 'Q' => 'q' | 'R' => 'r' | 'S' => 's' | 'T' => 't'
  | 'U' => 'u' | 'V' => 'v' | 'W' => 'w' | 'X' => 'x' | 'Y' => 'y'
  | 'Z' => 'z'
  | c => c

/-- Python `s.lower()`. -/
def lowerStr (s : Str) : Str := s.map toLowerChar

/-- Python `s.strip()`: drop whitespace from both ends. -/
def stripStr (s : Str) : Str :=
  ((s.dropWhile isSpaceChar).reverse.dropWhile isSpaceChar).reverse

/-- Python `s.zfill(2)` on the digit-only strings it is applied to. -/
def zfill2 (s : Str) : Str :=
  if s.length < 2 then List.replicate (2 - s.length) '0' ++ s else s

/-- Python `s.isdigit()` (false on the empty string). -/
def isdigitStr (s : Str) : Bool := !s.isEmpty && s.all isDigitChar

/-- Characters deleted by the four `replace(c, "")` calls of
`_normalize_time`: double quote, apostrophe, space and period. -/
def isRemovedQSP (c : Char) : Bool :=
  c == quoteC || c == apoC || c == ' ' || c == '.'

/-- The chain of single-character `replace(c, "")` calls deletes every
occurrence of those characters, i.e. filters them out. -/
def stripQSP (s : Str) : Str := s.filter (fun c => !(isRemovedQSP c))

/-- Python `needle in hay` prefix test helper. -/
def startsWithSub : Str → Str → Bool
  | [], _ => true
  | _ :: _, [] => false
  | a :: as, b :: bs => a == b && startsWithSub as bs

/-- Python substring containment `needle in hay`. -/
def containsSub (needle : Str) : Str → Bool
  | [] => startsWithSub needle []
  | c :: rest => startsWithSub needle (c :: rest) || containsSub needle rest

/-- `SalesRAGAgent._normalize_time` (sales_rag_agent.py lines 159-172). -/
def normalize_time (message : Str) : Str :=
  let parsed := stripQSP (lowerStr (stripStr message))
  if isdigitStr parsed then
    if parsed.length ≤ 2 then zfill2 parsed ++ [':', '0', '0']
    else if parsed.length = 3 then '0' :: (parsed.take 1 ++ ':' :: parsed.drop 1)
    else if parsed.length = 4 then parsed.take 2 ++ ':' :: parsed.drop 2
    else parsed
  else if ':' ∈ parsed then
    match parsed.splitOn ':' with
    | [p0, p1] => if isdigitStr p0 && isdigitStr p1 then zfill2 p0 ++ ':' :: zfill2 p1 else parsed
    | _ => parsed
  else parsed

/-- The name-introduction keywords of `is_contact_info`. -/
def nameKeywords : List Str :=
  [tl "name is", tl "i am", ['i', apoC, 'm'], tl "this is"]

/-- Count the leading run of literal `d` characters. -/
def countD : Str → Nat
  | 'd' :: rest => countD rest + 1
  | _ => 0

/-- Drop the leading run of literal `d` characters. -/
def dropDs : Str → Str
  | 'd' :: rest => dropDs rest
  | s => s

/-- Match of the phone pattern at the head of `s`.  The source writes the
raw string `r"\\b\\d{10,}\\b"`, whose regex meaning is: literal backslash,
literal `b`, literal backslash, ten or more literal `d` characters, literal
backslash, literal `b`.  A backtracking match starting here succeeds exactly
when the maximal run of `d` after the leading `\b\` has length at least 10
and is immediately followed by `\b` (shorter runs are followed by `d`,
which cannot match the literal backslash). -/
def phoneMatchAt (s : Str) : Bool :=
  match s with
  | b1 :: c1 :: b2 :: rest =>
    b1 == bslashC && c1 == 'b' && b2 == bslashC &&
      (decide (10 ≤ countD rest) &&
        (match dropDs rest with
         | b3 :: c2 :: _ => b3 == bslashC && c2 == 'b'
         | _ => false))
  | _ => false

/-- `re.search` of the phone pattern: a match at some position. -/
def phoneRegexMatch : Str → Bool
  | [] => false
  | c :: rest => phoneMatchAt (c :: rest) || phoneRegexMatch rest

/-- Character class of the email pattern.  The source writes the raw string
`r"[\\w\\.-]+@[\\w\\.-]+"`, whose regex class `[\\w\\.-]` contains exactly
the literal characters backslash, `w`, period and hyphen. -/
def inEmailClass (c : Char) : Bool :=
  c == bslashC || c == 'w' || c == '.' || c == '-'

/-- `re.search` of the email pattern `[S]+@[S]+` with `S` the literal class
above: a match exists exactly when some `@` is immediately preceded and
followed by a class character, which this three-character scan detects. -/
def emailRegexMatch : Str → Bool
  | a :: b :: c :: rest =>
    (inEmailClass a && b == '@' && inEmailClass c) || emailRegexMatch (b :: c :: rest)
  | _ => false

/-- `is_contact_info` (sales_rag_agent.py lines 57-67). -/
def is_contact_info (msg : Str) : Bool :=
  let msg_lower := lowerStr msg
  if phoneRegexMatch msg || emailRegexMatch msg then true
  else if nameKeywords.any (fun kw => containsSub kw msg_lower) then true
  else false

/-- The lead-progression states.  Modelled from the spec: `lead_state.py`
is not in src; the spec fixes exactly these six states (§3). -/
inductive LeadState where
  | NO_INTEREST
  | INTEREST_DETECTED
  | COLLECTING_INFO
  | INFO_COMPLETE
  | AWAITING_MEETING_CONFIRMATION
  | WAITING_MEETING_SLOT_SELECTION
deriving DecidableEq

/-- Modelled from the spec: `lead_state.py` is not in src; each state's
`.value` label is the state name the spec uses throughout. -/
def LeadState.value : LeadState → Str
  | .NO_INTEREST => tl "NO_INTEREST"
  | .INTEREST_DETECTED => tl "INTEREST_DETECTED"
  | .COLLECTING_INFO => tl "COLLECTING_INFO"
  | .INFO_COMPLETE => tl "INFO_COMPLETE"
  | .AWAITING_MEETING_CONFIRMATION => tl "AWAITING_MEETING_CONFIRMATION"
  | .WAITING_MEETING_SLOT_SELECTION => tl "WAITING_MEETING_SLOT_SELECTION"

/-- The six valid lead-state labels. -/
def validLabels : List Str :=
  [tl "NO_INTEREST", tl "INTEREST_DETECTED", tl "COLLECTING_INFO", tl "INFO_COMPLETE",
   tl "AWAITING_MEETING_CONFIRMATION", tl "WAITING_MEETING_SLOT_SELECTION"]

/-- Python truthiness of a string. -/
def truthyStr (s : Str) : Bool := !s.isEmpty

/-- Python truthiness of `current_lead_id` / `lead_id` (`None` or a string). -/
def truthyId : Option Str → Bool
  | none => false
  | some s => truthyStr s

/-- Session state owned by the agent and its tools, as read and written by
`process` after `update_state` has run: the lead state, the partial lead
info mapping, the current lead id, the meeting tool's stored available
slots and the conversation history. -/
structure AgentState where
  leadState : LeadState
  partialLeadInfo : List (Str × Str)
  currentLeadId : Option Str
  availableSlots : List Str
  conversationHistory : List Str
deriving DecidableEq

/-- Results the external collaborators would return during one `process`
call: the raw classification reply of the reasoning LLM, the SQL agent
executor outcome (exception modelled as `Except.error`), the PDF question
answering reply, the conversational fallback reply, the missing required
fields reported by the lead tool, the `create_lead` result, the meeting
slots returned by `get_slots`, and the `schedule` outcome. -/
structure Oracles where
  decideToolRaw : Str
  sqlResult : Except Str Str
  ragAnswer : Str
  fallbackAnswer : Str
  missingFields : List Str
  createLead : Option Str
  slots : List Str
  scheduleOk : Bool

/-- The token `'sql'`. -/
def sqlTok : Str := tl "sql"

/-- The token `'rag'`. -/
def ragTok : Str := tl "rag"

/-- `SalesRAGAgent._decide_tool` (sales_rag_agent.py lines 34-50): strip
and lower the LLM reply, return `'sql'` when it contains `'sql'`, else
`'rag'`. -/
def decide_tool (raw : Str) : Str :=
  if containsSub sqlTok (lowerStr (stripStr raw)) then sqlTok else ragTok

/-- `SQLAgentTool.query` (sql_agent_tool.py lines 115-125): return the
agent executor's output, converting a raised exception into the error
text `"SQL agent error: ..."`. -/
def sqlQuery : Except Str Str → Str
  | .ok out => out
  | .error e => tl "SQL agent error: " ++ e

/-- Python `sep.join(items)`. -/
def joinSep (sep : Str) : List Str → Str
  | [] => []
  | [s] => s
  | s :: rest => s ++ sep ++ joinSep sep rest

/-- Modelled from the spec: `meeting_tool.format_slots` is not in src; the
spec (§6, scenario 2) has it produce display text listing each slot, here
one slot per line. -/
def format_slots (slots : List Str) : Str := joinSep (tl "\n") slots

/-- The out-of-domain sentinel substring checked against the PDF tool's
reply. -/
def sentinelOOD : Str := tl "Sorry, I can only answer questions"

/-- The affirmative tokens accepted in `AWAITING_MEETING_CONFIRMATION`
(sales_rag_agent.py line 131). -/
def affirmatives : List Str :=
  [tl "yes", tl "yeah", tl "y", tl "sure", tl "please", tl "schedule",
   tl "schedule meeting", tl "schedul", tl "scedul", tl "shedule", tl "sedul"]

/-- The affirmative tokens as enumerated by claim C1's sibling C3 and the
spec (§4.2): the code's list without `"schedule meeting"`.  Written from
the spec's words for comparison with `affirmatives`. -/
def claimAffirmativeTokens : List Str :=
  [tl "yes", tl "yeah", tl "y", tl "sure", tl "please", tl "schedule",
   tl "schedul", tl "scedul", tl "shedule", tl "sedul"]

/-- Response `"Thanks!"`. -/
def thanksMsg : Str := tl "Thanks!"

/-- Response listing the missing fields (singular phrasing for exactly one
missing field, comma-joined list otherwise). -/
def justNeedMsg (missing : List Str) : Str :=
  match missing with
  | [m] => tl "Just need your " ++ m ++ tl " to get started."
  | _ => tl "Just need your " ++ joinSep (tl ", ") missing ++ tl " to get started."

/-- Suffix appended after a document answer in `INTEREST_DETECTED`. -/
def couldShareMsg (missing : List Str) : Str :=
  tl "\n\nCould you share your " ++ joinSep (tl ", ") missing ++ tl "?"

/-- Suffix appended after a document answer in `COLLECTING_INFO`. -/
def justNeedSuffixMsg (missing : List Str) : Str :=
  tl "\n\nJust need your " ++ joinSep (tl ", ") missing ++ tl " to get started."

/-- Response after a successful lead save. -/
def savedMsg : Str :=
  tl "Great! I" ++ [apoC] ++
    tl "ve saved your information.\nDo you want to schedule a meeting with our team? (Yes/No)"

/-- Response after a failed lead save. -/
def troubleMsg : Str :=
  tl "Sorry, I had trouble saving your information. Would you mind trying again?"

/-- Response presenting the fetched meeting slots. -/
def hereAreMsg (slots : List Str) : Str :=
  tl "Here are the available meeting slots for today:\n" ++ format_slots slots ++
    tl "\nPlease pick one."

/-- Response when no slots could be fetched. -/
def cantFetchMsg : Str := tl "Sorry, I couldn’t fetch available meeting slots right now."

/-- Acknowledgement when the user declines the meeting. -/
def noProblemMsg : Str := tl "No problem! Let me know if you have any other questions."

/-- Response confirming a scheduled meeting. -/
def scheduledMsg (slot : Str) : Str :=
  tl "✅ Your meeting has been scheduled at " ++ slot ++ tl ". Our team will contact you soon!"

/-- Response after a failed scheduling attempt. -/
def scheduleFailMsg (slot : Str) : Str :=
  tl "❌ Something went wrong while scheduling your meeting at " ++ slot ++ tl ". Please try again."

/-- Re-prompt for an unmatched time, echoing the raw message and listing
the valid options. -/
def invalidTimeMsg (message : Str) (slots : List Str) : Str :=
  tl "⚠️ " ++ [apoC] ++ message ++ [apoC] ++
    tl " is not a valid time. Please choose from: " ++ joinSep (tl ", ") slots

/-- The state-keyed if/elif chain of `SalesRAGAgent.process`
(sales_rag_agent.py lines 68-154), computing the response and the updated
tool state.  Side effects of missing tool code are modelled from the spec:
`get_slots` stores the fetched slots on the meeting tool (§3
AvailableSlots), and a successful `create_lead` stores the new id (§3
CurrentLeadId). -/
def branchStep (st : AgentState) (message : Str) (o : Oracles) : Str × AgentState :=
  match st.leadState with
  | .NO_INTEREST =>
      let tool := decide_tool o.decideToolRaw
      if tool = sqlTok then
        (sqlQuery o.sqlResult, st)
      else
        if containsSub sentinelOOD o.ragAnswer = false then
          (o.ragAnswer, st)
        else
          (o.fallbackAnswer, st)
  | .INTEREST_DETECTED =>
      let missing := o.missingFields
      if is_contact_info message then
        if missing ≠ [] then (justNeedMsg missing, st) else (thanksMsg, st)
      else
        if missing ≠ [] then (o.ragAnswer ++ couldShareMsg missing, st) else (o.ragAnswer, st)
  | .COLLECTING_INFO =>
      let missing := o.missingFields
      if is_contact_info message then
        if missing ≠ [] then (justNeedMsg missing, st) else (thanksMsg, st)
      else
        if missing ≠ [] then (o.ragAnswer ++ justNeedSuffixMsg missing, st) else (o.ragAnswer, st)
  | .INFO_COMPLETE =>
      let lead_id := o.createLead
      if truthyId lead_id then
        (savedMsg, { st with currentLeadId := lead_id })
      else
        (troubleMsg, st)
  | .AWAITING_MEETING_CONFIRMATION =>
      if lowerStr (stripStr message) ∈ affirmatives then
        let slots := o.slots
        if slots ≠ [] then
          (hereAreMsg slots,
           { st with leadState := .WAITING_MEETING_SLOT_SELECTION, availableSlots := slots })
        else
          (cantFetchMsg, { st with leadState := .NO_INTEREST, availableSlots := slots })
      else
        (noProblemMsg, { st with leadState := .NO_INTEREST })
  | .WAITING_MEETING_SLOT_SELECTION =>
      let slot := normalize_time message
      if slot ∈ st.availableSlots ∧ truthyId st.currentLeadId = true then
        ((if o.scheduleOk then scheduledMsg slot else scheduleFailMsg slot),
         { st with leadState := .NO_INTEREST, availableSlots := [], currentLeadId := none })
      else
        (invalidTimeMsg message st.availableSlots, st)

/-- Python `l[-n:]` for `n > 0`. -/
def lastN (n : Nat) (l : List α) : List α := l.drop (l.length - n)

/-- The `"Human: "` history tag. -/
def humanTag : Str := tl "Human: "

/-- The `"Assistant: "` history tag. -/
def assistTag : Str := tl "Assistant: "

/-- The dictionary returned by `process`, plus the session state it leaves
behind. -/
structure ProcessResult where
  response : Str
  lead_info : Option (List (Str × Str))
  lead_state : Str
  final : AgentState
deriving DecidableEq

/-- `SalesRAGAgent.process` (sales_rag_agent.py lines 52-157) over the
post-`update_state` session state: append the human turn, run the
state-keyed branch, append the assistant turn, truncate the history to the
last 30 entries, and return the response, the partial lead info (or none
when empty) and the lead-state label. -/
def process (st : AgentState) (message : Str) (o : Oracles) : ProcessResult :=
  let hist1 := st.conversationHistory ++ [humanTag ++ message]
  let rs := branchStep st message o
  { response := rs.1
    lead_info := if rs.2.partialLeadInfo = [] then none else some rs.2.partialLeadInfo
    lead_state := rs.2.leadState.value
    final := { rs.2 with conversationHistory := lastN 30 (hist1 ++ [assistTag ++ rs.1]) } }

/-- Oracle bundle used by concrete witnesses: empty replies, successful
SQL call, no created lead, no slots, scheduling succeeds. -/
def oNull : Oracles :=
  { decideToolRaw := [], sqlResult := Except.ok [], ragAnswer := [], fallbackAnswer := [],
    missingFields := [], createLead := none, slots := [], scheduleOk := true }

/-- Oracle bundle whose meeting collaborator returns two slots. -/
def oTwoSlots : Oracles := { oNull with slots := [tl "09:00", tl "10:00"] }

/-- Session fixture in `AWAITING_MEETING_CONFIRMATION` with a saved lead. -/
def stAwaitConfirm : AgentState :=
  { leadState := .AWAITING_MEETING_CONFIRMATION, partialLeadInfo := [],
    currentLeadId := some (tl "L1"), availableSlots := [], conversationHistory := [] }

/-- Session fixture in `WAITING_MEETING_SLOT_SELECTION` with one offered
slot and a saved lead id. -/
def stSlotSel : AgentState :=
  { leadState := .WAITING_MEETING_SLOT_SELECTION, partialLeadInfo := [],
    currentLeadId := some (tl "L1"), availableSlots := [tl "09:00"], conversationHistory := [] }

/-- Session fixture in `WAITING_MEETING_SLOT_SELECTION` with one offered
slot but no current lead id. -/
def stSlotSelNoId : AgentState := { stSlotSel with currentLeadId := none }

/-- Session fixture in `INFO_COMPLETE`. -/
def stInfoComplete : AgentState :=
  { leadState := .INFO_COMPLETE, partialLeadInfo := [(tl "name", tl "Jo")],
    currentLeadId := none, availableSlots := [], conversationHistory := [] }

theorem digit_cases {c : Char} (h : isDigitChar c = true) :
    c = '0' ∨ c = '1' ∨ c = '2' ∨ c = '3' ∨ c = '4' ∨
      c = '5' ∨ c = '6' ∨ c = '7' ∨ c = '8' ∨ c = '9' := by
  simp only [isDigitChar, Bool.or_eq_true, beq_iff_eq] at h
  tauto

theorem digit_notSpace {c : Char} (h : isDigitChar c = true) : isSpaceChar c = false := by
  rcases digit_cases h with rfl|rfl|rfl|rfl|rfl|rfl|rfl|rfl|rfl|rfl <;> decide

theorem digit_lower {c : Char} (h : isDigitChar c = true) : toLowerChar c = c := by
  rcases digit_cases h with rfl|rfl|rfl|rfl|rfl|rfl|rfl|rfl|rfl|rfl <;> decide

theorem digit_kept {c : Char} (h : isDigitChar c = true) : isRemovedQSP c = false := by
  rcases digit_cases h with rfl|rfl|rfl|rfl|rfl|rfl|rfl|rfl|rfl|rfl <;> decide

theorem digit_beq_colon {c : Char} (h : isDigitChar c = true) : (c == ':') = false := by
  rcases digit_cases h with rfl|rfl|rfl|rfl|rfl|rfl|rfl|rfl|rfl|rfl <;> decide

theorem dropWhile_eq_self_of {α : Type} {p : α → Bool} {l : List α}
    (h : ∀ c ∈ l, p c = false) : l.dropWhile p = l := by
  cases l with
  | nil => rfl
  | cons a t => simp [List.dropWhile_cons, h a (by simp)]

theorem stripStr_eq_self {l : Str} (h : ∀ c ∈ l, isSpaceChar c = false) : stripStr l = l := by
  unfold stripStr
  rw [dropWhile_eq_self_of h, dropWhile_eq_self_of (fun c hc => h c (by simpa using hc)),
    List.reverse_reverse]

theorem lowerStr_eq_self {l : Str} (h : ∀ c ∈ l, toLowerChar c = c) : lowerStr l = l := by
  unfold lowerStr
  rw [List.map_congr_left h]
  simp

theorem stripQSP_eq_self {l : Str} (h : ∀ c ∈ l, isRemovedQSP c = false) : stripQSP l = l := by
  unfold stripQSP
  rw [List.filter_eq_self.mpr (fun a ha => by simp [h a ha])]

theorem startsWithSub_iff {n h : Str} : startsWithSub n h = true ↔ n <+: h := by
  induction n generalizing h with
  | nil => simp [startsWithSub]
  | cons a as ih =>
    cases h with
    | nil => simp [startsWithSub]
    | cons b bs => simp [startsWithSub, ih, List.cons_prefix_cons, beq_iff_eq]

theorem containsSub_iff {n h : Str} : containsSub n h = true ↔ n <:+: h := by
  induction h with
  | nil => cases n <;> simp [containsSub, startsWithSub]
  | cons c r ih =>
    rw [containsSub, List.infix_cons_iff]
    simp [startsWithSub_iff, ih]

theorem isSpace_toLower (c : Char) : isSpaceChar (toLowerChar c) = isSpaceChar c := by
  unfold toLowerChar
  split <;> rfl

theorem lowerStr_stripStr (s : Str) : lowerStr (stripStr s) = stripStr (lowerStr s) := by
  have hp : isSpaceChar ∘ toLowerChar = isSpaceChar := funext fun c => isSpace_toLower c
  unfold lowerStr stripStr
  rw [show (List.map toLowerChar s).dropWhile isSpaceChar
        = List.map toLowerChar (s.dropWhile isSpaceChar) by rw [List.dropWhile_map, hp]]
  rw [show (List.map toLowerChar (s.dropWhile isSpaceChar)).reverse
        = List.map toLowerChar (s.dropWhile isSpaceChar).reverse by rw [List.map_reverse]]
  rw [show (List.map toLowerChar (s.dropWhile isSpaceChar).reverse).dropWhile isSpaceChar
        = List.map toLowerChar ((s.dropWhile isSpaceChar).reverse.dropWhile isSpaceChar) by
        rw [List.dropWhile_map, hp]]
  rw [List.map_reverse]

theorem infix_dropWhile_iff {p : Char → Bool} {t l : Str} {a : Char}
    (ha : t.head? = some a) (hpa : p a = false) :
    t <:+: l.dropWhile p ↔ t <:+: l := by
  constructor
  · intro h
    exact h.trans (List.dropWhile_suffix p).isInfix
  · intro h
    induction l with
    | nil => simpa using h
    | cons c r ih =>
      rw [List.dropWhile_cons]
      by_cases hc : p c = true
      · rw [if_pos hc]
        rcases List.infix_cons_iff.mp h with hpre | hinf
        · exfalso
          cases t with
          | nil => simp at ha
          | cons x xs =>
            have hxa : x = a := by simpa using ha
            have hxc : x = c := (List.cons_prefix_cons.mp hpre).1
            have h1 : p c = false := by rw [← hxc, hxa]; exact hpa
            rw [h1] at hc
            exact Bool.false_ne_true hc
        · exact ih hinf
      · rw [if_neg hc]
        exact h

theorem infix_stripStr_iff {t l : Str} {a b : Char}
    (hhead : t.head? = some a) (hpa : isSpaceChar a = false)
    (hlast : t.getLast? = some b) (hpb : isSpaceChar b = false) :
    t <:+: stripStr l ↔ t <:+: l := by
  unfold stripStr
  have e1 : (t <:+: ((l.dropWhile isSpaceChar).reverse.dropWhile isSpaceChar).reverse) ↔
      (t.reverse <:+: (l.dropWhile isSpaceChar).reverse.dropWhile isSpaceChar) := by
    constructor
    · intro h
      have h2 := List.reverse_infix.mpr h
      simpa using h2
    · intro h
      have h2 := List.reverse_infix.mpr h
      simpa using h2
  rw [e1]
  rw [infix_dropWhile_iff (a := b) (by rw [List.head?_reverse]; exact hlast) hpb]
  rw [ List.reverse_infix]
  exact infix_dropWhile_iff hhead hpa

theorem containsSql_strip (s : Str) :
    containsSub sqlTok (lowerStr (stripStr s)) = containsSub sqlTok (lowerStr s) := by
  rw [lowerStr_stripStr]
  have e : containsSub sqlTok (stripStr (lowerStr s)) = true ↔
      containsSub sqlTok (lowerStr s) = true := by
    rw [containsSub_iff, containsSub_iff]
    exact infix_stripStr_iff (a := 's') (b := 'l') rfl (by decide) rfl (by decide)
  cases h1 : containsSub sqlTok (stripStr (lowerStr s)) <;>
    cases h2 : containsSub sqlTok (lowerStr s) <;> simp_all

theorem mem_infix_joinSep (sep : Str) {s : Str} {l : List Str} (h : s ∈ l) :
    s <:+: joinSep sep l := by
  induction l with
  | nil => simp at h
  | cons a rest ih =>
    cases rest with
    | nil =>
      obtain rfl : s = a := by simpa using h
      exact List.infix_rfl
    | cons b t =>
      rcases List.mem_cons.mp h with rfl | hrest
      · show s <:+: s ++ sep ++ joinSep sep (b :: t)
        rw [List.append_assoc]
        exact (List.prefix_append _ _).isInfix
      · obtain ⟨u, v, huv⟩ := ih hrest
        refine ⟨a ++ sep ++ u, v, ?_⟩
        show a ++ sep ++ u ++ s ++ v = a ++ sep ++ joinSep sep (b :: t)
        rw [← huv]
        simp [List.append_assoc]

theorem infix_of_middle {t m : Str} (A B : Str) (h : t <:+: m) : t <:+: A ++ m ++ B := by
  obtain ⟨u, v, huv⟩ := h
  refine ⟨A ++ u, v ++ B, ?_⟩
  rw [← huv]
  simp [List.append_assoc]

theorem value_mem_validLabels (ls : LeadState) : ls.value ∈ validLabels := by
  cases ls <;> simp [LeadState.value, validLabels]

/-- C1: the claim states that `is_contact_info` returns true exactly when
the message holds a run of 10+ digits, an email-like token, or a
name-introduction phrase, and in particular true on
`"my email is a@b.com"`.  The code's raw strings double every backslash,
so the phone and email regexes only match literal backslashes: the code
returns false on `"my email is a@b.com"` and on a bare ten-digit run,
against the claim, while the phrase examples behave as claimed. -/
theorem C1_contact_info_regex_code_bug :
    is_contact_info (tl "my email is a@b.com") = false
      ∧ is_contact_info (tl "1234567890") = false
      ∧ is_contact_info (tl "name is John") = true
      ∧ is_contact_info (tl "I like blue") = false := by
  decide

/-- C2: `_normalize_time` strips quotes, spaces and periods and
lower-cases, then canonicalises digit and colon tokens; an
already-canonical `"HH:MM"` token is returned unchanged, `"9"` gives
`"09:00"`, `"930"` gives `"09:30"`, `"14:5"` gives `"14:05"`, and tokens
matching no rule come back unchanged. -/
theorem C2_normalize_time_spec :
    (∀ d1 d2 d3 d4 : Char, isDigitChar d1 = true → isDigitChar d2 = true →
        isDigitChar d3 = true → isDigitChar d4 = true →
        normalize_time [d1, d2, ':', d3, d4] = [d1, d2, ':', d3, d4])
      ∧ normalize_time (tl "9") = tl "09:00"
      ∧ normalize_time (tl "930") = tl "09:30"
      ∧ normalize_time (tl "14:5") = tl "14:05"
      ∧ normalize_time (tl "abc") = tl "abc"
      ∧ normalize_time (tl "12345") = tl "12345" := by
  refine ⟨?_, by decide, by decide, by decide, by decide, by decide⟩
  intro d1 d2 d3 d4 h1 h2 h3 h4
  have hmem : ∀ c ∈ [d1, d2, ':', d3, d4], isSpaceChar c = false := by
    intro c hc
    rcases (by simpa using hc : c = d1 ∨ c = d2 ∨ c = ':' ∨ c = d3 ∨ c = d4)
      with rfl|rfl|rfl|rfl|rfl
    · exact digit_notSpace h1
    · exact digit_notSpace h2
    · decide
    · exact digit_notSpace h3
    · exact digit_notSpace h4
  have hlow : ∀ c ∈ [d1, d2, ':', d3, d4], toLowerChar c = c := by
    intro c hc
    rcases (by simpa using hc : c = d1 ∨ c = d2 ∨ c = ':' ∨ c = d3 ∨ c = d4)
      with rfl|rfl|rfl|rfl|rfl
    · exact digit_lower h1
    · exact digit_lower h2
    · decide
    · exact digit_lower h3
    · exact digit_lower h4
  have hkeep : ∀ c ∈ [d1, d2, ':', d3, d4], isRemovedQSP c = false := by
    intro c hc
    rcases (by simpa using hc : c = d1 ∨ c = d2 ∨ c = ':' ∨ c = d3 ∨ c = d4)
      with rfl|rfl|rfl|rfl|rfl
    · exact digit_kept h1
    · exact digit_kept h2
    · decide
    · exact digit_kept h3
    · exact digit_kept h4
  have hnd : isdigitStr [d1, d2, ':', d3, d4] = false := by
    have hc : isDigitChar ':' = false := by decide
    simp [isdigitStr, List.all_cons, hc]
  have hsplit : ([d1, d2, ':', d3, d4] : Str).splitOn ':' = [[d1, d2], [d3, d4]] := by
    simp [List.splitOn, List.splitOnP_cons, digit_beq_colon h1, digit_beq_colon h2,
      digit_beq_colon h3, digit_beq_colon h4, List.splitOnP_nil]
  unfold normalize_time
  rw [stripStr_eq_self hmem, lowerStr_eq_self hlow, stripQSP_eq_self hkeep]
  simp only [hnd, Bool.false_eq_true, if_false, hsplit]
  have hcol : (':' : Char) ∈ [d1, d2, ':', d3, d4] := by simp
  simp only [if_pos hcol]
  have hd1 : isdigitStr [d1, d2] = true := by simp [isdigitStr, List.all_cons, h1, h2]
  have hd2 : isdigitStr [d3, d4] = true := by simp [isdigitStr, List.all_cons, h3, h4]
  simp only [hd1, hd2, Bool.and_self, if_pos]
  simp [zfill2]

/-- C2 witness: the canonical token `"09:30"` is normalized to itself. -/
theorem C2_normalize_time_spec_witness :
    isDigitChar '0' = true ∧ isDigitChar '9' = true ∧ isDigitChar '3' = true ∧
      normalize_time ['0', '9', ':', '3', '0'] = ['0', '9', ':', '3', '0'] := by
  refine ⟨by decide, by decide, by decide, ?_⟩
  exact C2_normalize_time_spec.1 '0' '9' '3' '0' (by decide) (by decide) (by decide) (by decide)

/-- C3 counterexample: `"schedule meeting"` is not in the claim's
affirmative token list, yet the code treats it as affirmative and, with
slots available, moves to `WAITING_MEETING_SLOT_SELECTION` instead of the
`NO_INTEREST` the claim requires for every non-listed message. -/
theorem C3_schedule_meeting_counterexample :
    lowerStr (stripStr (tl "schedule meeting")) ∉ claimAffirmativeTokens
      ∧ (process stAwaitConfirm (tl "schedule meeting") oTwoSlots).final.leadState
          ≠ LeadState.NO_INTEREST
      ∧ (process stAwaitConfirm (tl "schedule meeting") oTwoSlots).final.leadState
          = LeadState.WAITING_MEETING_SLOT_SELECTION := by
  decide

/-- C3 (amended: the affirmative token list also contains
`"schedule meeting"`): in `AWAITING_MEETING_CONFIRMATION`, an affirmative
message fetches the collaborator's slots; with slots the response
presents every slot and the state becomes
`WAITING_MEETING_SLOT_SELECTION`, with no slots the response apologizes
and the state becomes `NO_INTEREST`; any non-affirmative message yields
the acknowledgement and `NO_INTEREST`. -/
theorem C3_awaiting_confirmation_amended (st : AgentState) (msg : Str) (o : Oracles)
    (hs : st.leadState = .AWAITING_MEETING_CONFIRMATION) :
    (lowerStr (stripStr msg) ∈ affirmatives →
      (o.slots ≠ [] →
        (process st msg o).response = hereAreMsg o.slots
          ∧ (process st msg o).final.leadState = .WAITING_MEETING_SLOT_SELECTION
          ∧ (process st msg o).final.availableSlots = o.slots
          ∧ ∀ s ∈ o.slots, s <:+: (process st msg o).response)
      ∧ (o.slots = [] →
        (process st msg o).response = cantFetchMsg
          ∧ (process st msg o).final.leadState = .NO_INTEREST))
    ∧ (lowerStr (stripStr msg) ∉ affirmatives →
      (process st msg o).final.leadState = .NO_INTEREST
        ∧ (process st msg o).response = noProblemMsg) := by
  obtain ⟨ls, pli, cid, avs, ch⟩ := st
  obtain rfl : ls = .AWAITING_MEETING_CONFIRMATION := hs
  constructor
  · intro haff
    constructor
    · intro hne
      refine ⟨?_, ?_, ?_, ?_⟩
      · simp only [process, branchStep, if_pos haff, if_pos hne]
      · simp only [process, branchStep, if_pos haff, if_pos hne]
      · simp only [process, branchStep, if_pos haff, if_pos hne]
      · intro s hsm
        have h1 : s <:+: format_slots o.slots := mem_infix_joinSep _ hsm
        have h2 : s <:+: hereAreMsg o.slots := infix_of_middle _ _ h1
        have h3 : (process ⟨LeadState.AWAITING_MEETING_CONFIRMATION, pli, cid, avs, ch⟩
            msg o).response = hereAreMsg o.slots := by
          simp only [process, branchStep, if_pos haff, if_pos hne]
        rw [h3]
        exact h2
    · intro hnil
      constructor
      · simp [process, branchStep, if_pos haff, hnil]
      · simp [process, branchStep, if_pos haff, hnil]
  · intro hna
    constructor
    · simp only [process, branchStep, if_neg hna]
    · simp only [process, branchStep, if_neg hna]

/-- C3 witness: the misspelled affirmative `"scedul"` with two available
slots yields the slot-presenting response and the slot-selection state. -/
theorem C3_awaiting_confirmation_amended_witness :
    lowerStr (stripStr (tl "scedul")) ∈ affirmatives
      ∧ (process stAwaitConfirm (tl "scedul") oTwoSlots).response = hereAreMsg oTwoSlots.slots
      ∧ (process stAwaitConfirm (tl "scedul") oTwoSlots).final.leadState
          = LeadState.WAITING_MEETING_SLOT_SELECTION := by
  refine ⟨by decide, ?_, ?_⟩
  · exact (((C3_awaiting_confirmation_amended stAwaitConfirm (tl "scedul") oTwoSlots rfl).1
      (by decide)).1 (by decide)).1
  · exact (((C3_awaiting_confirmation_amended stAwaitConfirm (tl "scedul") oTwoSlots rfl).1
      (by decide)).1 (by decide)).2.1

/-- C4: in `WAITING_MEETING_SLOT_SELECTION`, a message normalizing to an
offered slot while a current lead id exists triggers scheduling, the
response reports success or failure, and the state reverts to
`NO_INTEREST` with the available slots and the current lead id cleared; a
message whose normalized form matches no offered slot re-prompts with the
valid options and keeps the state. -/
theorem C4_slot_selection (st : AgentState) (msg : Str) (o : Oracles)
    (hs : st.leadState = .WAITING_MEETING_SLOT_SELECTION) :
    (normalize_time msg ∈ st.availableSlots → truthyId st.currentLeadId = true →
      (process st msg o).response
          = (if o.scheduleOk then scheduledMsg (normalize_time msg)
             else scheduleFailMsg (normalize_time msg))
        ∧ (process st msg o).final.leadState = .NO_INTEREST
        ∧ (process st msg o).final.availableSlots = []
        ∧ (process st msg o).final.currentLeadId = none)
    ∧ (normalize_time msg ∉ st.availableSlots →
      (process st msg o).response = invalidTimeMsg msg st.availableSlots
        ∧ (process st msg o).final.leadState = .WAITING_MEETING_SLOT_SELECTION) := by
  obtain ⟨ls, pli, cid, avs, ch⟩ := st
  obtain rfl : ls = .WAITING_MEETING_SLOT_SELECTION := hs
  constructor
  · intro hmem hid
    simp only [process, branchStep, if_pos (And.intro hmem hid)]
    exact ⟨trivial, trivial, trivial, trivial⟩
  · intro hmem
    have hcond : ¬(normalize_time msg ∈ avs ∧ truthyId cid = true) := fun h => hmem h.1
    simp only [process, branchStep, if_neg hcond]
    exact ⟨trivial, trivial⟩

/-- C4 witness: with slot `"09:00"` offered and a lead id present, the
message `"9"` normalizes to `"09:00"` and a successful schedule confirms,
reverts the state and clears slots and lead id. -/
theorem C4_slot_selection_witness :
    normalize_time (tl "9") ∈ stSlotSel.availableSlots
      ∧ truthyId stSlotSel.currentLeadId = true
      ∧ (process stSlotSel (tl "9") oNull).response
          = (if oNull.scheduleOk then scheduledMsg (normalize_time (tl "9"))
             else scheduleFailMsg (normalize_time (tl "9")))
      ∧ (process stSlotSel (tl "9") oNull).final.leadState = LeadState.NO_INTEREST
      ∧ (process stSlotSel (tl "9") oNull).final.availableSlots = []
      ∧ (process stSlotSel (tl "9") oNull).final.currentLeadId = none := by
  refine ⟨by decide, by decide, ?_, ?_, ?_, ?_⟩
  · exact ((C4_slot_selection stSlotSel (tl "9") oNull rfl).1 (by decide) (by decide)).1
  · exact ((C4_slot_selection stSlotSel (tl "9") oNull rfl).1 (by decide) (by decide)).2.1
  · exact ((C4_slot_selection stSlotSel (tl "9") oNull rfl).1 (by decide) (by decide)).2.2.1
  · exact ((C4_slot_selection stSlotSel (tl "9") oNull rfl).1 (by decide) (by decide)).2.2.2

/-- C5: in `INFO_COMPLETE`, a `create_lead` returning no id yields the
trouble-saving apology and leaves the lead state at `INFO_COMPLETE`; a
returned (nonempty) id yields the saved-confirmation with the yes/no
meeting question. -/
theorem C5_info_complete_failure (st : AgentState) (msg : Str) (o : Oracles)
    (hs : st.leadState = .INFO_COMPLETE) :
    (o.createLead = none →
      (process st msg o).response = troubleMsg
        ∧ (process st msg o).final.leadState = .INFO_COMPLETE
        ∧ (process st msg o).lead_state = tl "INFO_COMPLETE")
    ∧ (∀ idv, o.createLead = some idv → idv ≠ [] →
        (process st msg o).response = savedMsg
          ∧ (process st msg o).final.currentLeadId = some idv) := by
  obtain ⟨ls, pli, cid, avs, ch⟩ := st
  obtain rfl : ls = .INFO_COMPLETE := hs
  constructor
  · intro hnone
    have hf : truthyId o.createLead = false := by rw [hnone]; rfl
    simp [process, branchStep, hf, LeadState.value]
  · intro idv hsome hne
    have ht : truthyId (some idv) = true := by
      cases idv with
      | nil => exact absurd rfl hne
      | cons a t => rfl
    simp [process, branchStep, hsome, ht]

/-- C5 witness: with `create_lead` returning none the response is the
trouble-saving apology and the state stays `INFO_COMPLETE`. -/
theorem C5_info_complete_failure_witness :
    oNull.createLead = none
      ∧ (process stInfoComplete (tl "ok") oNull).response = troubleMsg
      ∧ (process stInfoComplete (tl "ok") oNull).final.leadState = LeadState.INFO_COMPLETE
      ∧ (process stInfoComplete (tl "ok") oNull).lead_state = tl "INFO_COMPLETE" := by
  refine ⟨rfl, ?_, ?_, ?_⟩
  · exact ((C5_info_complete_failure stInfoComplete (tl "ok") oNull rfl).1 rfl).1
  · exact ((C5_info_complete_failure stInfoComplete (tl "ok") oNull rfl).1 rfl).2.1
  · exact ((C5_info_complete_failure stInfoComplete (tl "ok") oNull rfl).1 rfl).2.2

/-- C6: every `process` call appends the human turn and one assistant
turn to the conversation history and truncates it from the front, so the
resulting history is the last-30 slice of the appended history, has at
most 30 entries, and is a suffix of the full appended history. -/
theorem C6_history_bounded (st : AgentState) (msg : Str) (o : Oracles) :
    (process st msg o).final.conversationHistory
        = lastN 30 ((st.conversationHistory ++ [humanTag ++ msg]) ++
            [assistTag ++ (process st msg o).response])
      ∧ (process st msg o).final.conversationHistory.length ≤ 30
      ∧ (process st msg o).final.conversationHistory
          <:+ ((st.conversationHistory ++ [humanTag ++ msg]) ++
            [assistTag ++ (process st msg o).response]) := by
  refine ⟨rfl, ?_, ?_⟩
  · show (lastN 30 ((st.conversationHistory ++ [humanTag ++ msg]) ++
        [assistTag ++ (process st msg o).response])).length ≤ 30
    simp [lastN]
    omega
  · show lastN 30 ((st.conversationHistory ++ [humanTag ++ msg]) ++
        [assistTag ++ (process st msg o).response]) <:+ _
    exact List.drop_suffix _ _

/-- C7: `process` is a total function of the session state, the message
and the collaborator outcomes — every call returns a result whose
lead-state label is one of the six valid labels — and a raised SQL-agent
exception is converted at the call site into the error text rather than
propagated. -/
theorem C7_process_total_valid :
    (∀ (st : AgentState) (msg : Str) (o : Oracles),
        (process st msg o).lead_state ∈ validLabels)
      ∧ (∀ e : Str, sqlQuery (Except.error e) = tl "SQL agent error: " ++ e) := by
  constructor
  · intro st msg o
    show (branchStep st msg o).2.leadState.value ∈ validLabels
    exact value_mem_validLabels _
  · intro e
    rfl

/-- C8: the intent classifier returns `'sql'` exactly when the raw LLM
reply contains `"sql"` case-insensitively (stripping surrounding
whitespace cannot create or destroy such an occurrence), and `'rag'`
otherwise. -/
theorem C8_intent_classifier_iff (raw : Str) :
    (decide_tool raw = sqlTok ↔ containsSub sqlTok (lowerStr raw) = true)
      ∧ (decide_tool raw = ragTok ↔ containsSub sqlTok (lowerStr raw) = false) := by
  unfold decide_tool
  rw [containsSql_strip raw]
  have hne : sqlTok ≠ ragTok := by decide
  cases hb : containsSub sqlTok (lowerStr raw) with
  | true => simp [hb, hne]
  | false =>
    simp only [hb, Bool.false_eq_true, if_false]
    constructor
    · constructor
      · intro h
        exact absurd h.symm hne
      · intro h
        simp at h
    · simp

/-- C9: in `WAITING_MEETING_SLOT_SELECTION`, a message normalizing to an
offered slot while no current lead id exists takes the invalid-time
re-prompt branch: no scheduling happens (the result is independent of the
scheduling outcome), the state stays `WAITING_MEETING_SLOT_SELECTION` and
the available slots are unchanged. -/
theorem C9_missing_lead_id (st : AgentState) (msg : Str) (o : Oracles)
    (hs : st.leadState = .WAITING_MEETING_SLOT_SELECTION)
    (hid : st.currentLeadId = none)
    (hmem : normalize_time msg ∈ st.availableSlots) :
    (process st msg o).response = invalidTimeMsg msg st.availableSlots
      ∧ (process st msg o).final.leadState = .WAITING_MEETING_SLOT_SELECTION
      ∧ (process st msg o).final.availableSlots = st.availableSlots
      ∧ (∀ b : Bool, process st msg { o with scheduleOk := b } = process st msg o) := by
  obtain ⟨ls, pli, cid, avs, ch⟩ := st
  obtain rfl : ls = .WAITING_MEETING_SLOT_SELECTION := hs
  obtain rfl : cid = none := hid
  have hcond : ¬(normalize_time msg ∈ avs ∧ truthyId none = true) := by
    rintro ⟨_, ht⟩
    exact Bool.false_ne_true ht
  refine ⟨?_, ?_, ?_, ?_⟩
  · simp only [process, branchStep, if_neg hcond]
  · simp only [process, branchStep, if_neg hcond]
  · simp only [process, branchStep, if_neg hcond]
  · intro b
    simp only [process, branchStep, if_neg hcond]

/-- C9 witness: slot `"09:00"` is offered and `"9"` matches it, but with
no lead id the call re-prompts and keeps state and slots. -/
theorem C9_missing_lead_id_witness :
    stSlotSelNoId.currentLeadId = none
      ∧ normalize_time (tl "9") ∈ stSlotSelNoId.availableSlots
      ∧ (process stSlotSelNoId (tl "9") oNull).response
          = invalidTimeMsg (tl "9") stSlotSelNoId.availableSlots
      ∧ (process stSlotSelNoId (tl "9") oNull).final.leadState
          = LeadState.WAITING_MEETING_SLOT_SELECTION
      ∧ (process stSlotSelNoId (tl "9") oNull).final.availableSlots
          = stSlotSelNoId.availableSlots := by
  refine ⟨rfl, by decide, ?_, ?_, ?_⟩
  · exact (C9_missing_lead_id stSlotSelNoId (tl "9") oNull rfl rfl (by decide)).1
  · exact (C9_missing_lead_id stSlotSelNoId (tl "9") oNull rfl rfl (by decide)).2.1
  · exact (C9_missing_lead_id stSlotSelNoId (tl "9") oNull rfl rfl (by decide)).2.2.1

/-- C10: in `AWAITING_MEETING_CONFIRMATION`, a non-affirmative message
changes only the lead state (to `NO_INTEREST`): the current lead id, the
available slots and the partial lead info are all left unchanged. -/
theorem C10_decline_frame (st : AgentState) (msg : Str) (o : Oracles)
    (hs : st.leadState = .AWAITING_MEETING_CONFIRMATION)
    (hna : lowerStr (stripStr msg) ∉ affirmatives) :
    (process st msg o).final.leadState = .NO_INTEREST
      ∧ (process st msg o).final.currentLeadId = st.currentLeadId
      ∧ (process st msg o).final.availableSlots = st.availableSlots
      ∧ (process st msg o).final.partialLeadInfo = st.partialLeadInfo
      ∧ (process st msg o).response = noProblemMsg := by
  obtain ⟨ls, pli, cid, avs, ch⟩ := st
  obtain rfl : ls = .AWAITING_MEETING_CONFIRMATION := hs
  simp only [process, branchStep, if_neg hna]
  exact ⟨trivial, trivial, trivial, trivial, trivial⟩

/-- C10 witness: declining with `"no"` reverts the state but keeps the
saved lead id, the slots and the partial info. -/
theorem C10_decline_frame_witness :
    lowerStr (stripStr (tl "no")) ∉ affirmatives
      ∧ (process stAwaitConfirm (tl "no") oNull).final.leadState = LeadState.NO_INTEREST
      ∧ (process stAwaitConfirm (tl "no") oNull).final.currentLeadId
          = stAwaitConfirm.currentLeadId
      ∧ (process stAwaitConfirm (tl "no") oNull).final.partialLeadInfo
          = stAwaitConfirm.partialLeadInfo := by
  refine ⟨by decide, ?_, ?_, ?_⟩
  · exact (C10_decline_frame stAwaitConfirm (tl "no") oNull rfl (by decide)).1
  · exact (C10_decline_frame stAwaitConfirm (tl "no") oNull rfl (by decide)).2.1
  · exact (C10_decline_frame stAwaitConfirm (tl "no") oNull rfl (by decide)).2.2.2.1
